import Mathlib

/-!
A shallow embedding of the whatsapp-web-simulator backend core:
the webhook ingestion pipeline (`processWebhooks.js`) and the
message controller (`controllers/messageController.js`), together with the
Mongoose schema constraints of `models/Message.js`.

The MongoDB collection of `Message` documents is modelled as a
`List MessageRecord` in insertion order.  JavaScript values that may be
`undefined` are modelled as `Option`; the JavaScript truthiness of strings
(`""` is falsy) is modelled explicitly.  `NaN` timestamps (from
`parseInt` on a non-numeric string) are modelled as `none`.
-/

/-- JavaScript truthiness of a possibly-undefined string:
`undefined` and `""` are falsy. -/
def truthy (o : Option String) : Bool :=
  match o with
  | none => false
  | some s => s ≠ ""

/-- JavaScript `s || d` for strings: `""` falls through to the default. -/
def jsOr (s d : String) : String :=
  if s = "" then d else s

/-- JavaScript `o || d` where `o` may be `undefined`. -/
def jsOrOpt (o : Option String) (d : String) : String :=
  match o with
  | none => d
  | some s => jsOr s d

/-- The whitespace characters stripped by `String.prototype.trim`
(the common ASCII ones). -/
def jsWhitespace (c : Char) : Bool :=
  c == ' ' || c == '\t' || c == '\n' || c == '\r'

/-- JavaScript `String.prototype.trim`. -/
def jsTrim (s : String) : String :=
  String.mk (((s.data.dropWhile jsWhitespace).reverse.dropWhile jsWhitespace).reverse)

/-- Numeric value of a list of decimal digit characters. -/
def digitsVal (cs : List Char) : Nat :=
  cs.foldl (fun acc c => acc * 10 + (c.toNat - '0'.toNat)) 0

/-- The leading decimal-digit run of a character list, as a number;
`none` when the list does not start with a digit. -/
def leadingNat (cs : List Char) : Option Nat :=
  let ds := cs.takeWhile (·.isDigit)
  if ds.isEmpty then none else some (digitsVal ds)

/-- JavaScript `parseInt` (radix 10): skip leading whitespace, optional
sign, then the longest leading digit run; `none` models `NaN`.
(Radix prefixes such as `0x` are outside the modelled inputs: webhook
timestamps are decimal strings.) -/
def parseIntJS (s : String) : Option Int :=
  match (jsTrim s).data with
  | '-' :: rest => (leadingNat rest).map (fun n => -(n : Int))
  | '+' :: rest => (leadingNat rest).map (fun n => (n : Int))
  | cs => (leadingNat cs).map (fun n => (n : Int))

/-- A persisted `Message` document (`models/Message.js`), after Mongoose
validation: the `required` fields are present non-empty strings, the
`timestamp` is a genuine number.  The store-managed audit fields
`createdAt`/`updatedAt` are not semantically meaningful and are omitted. -/
structure MessageRecord where
  messageId : String
  wa_id : String
  text : String
  messageType : String
  fromNumber : String
  toNumber : String
  contactName : String
  timestamp : Int
  isOutgoing : Bool
  status : String
deriving Repr, DecidableEq, Inhabited

/-- The raw message object built by `createMessageFromWebhook` before it is
handed to Mongoose: fields can still be `undefined` (absent webhook
fields) and the timestamp can be `NaN` (`none`). -/
structure MessageData where
  messageId : Option String
  wa_id : Option String
  text : String
  messageType : String
  fromNumber : Option String
  toNumber : Option String
  contactName : String
  timestamp : Option Int
  isOutgoing : Bool
  status : String
deriving Repr, DecidableEq

/-- One entry of `value.contacts` in a webhook document;
`profileName` stands for `contact.profile?.name`. -/
structure WebhookContact where
  wa_id : String
  profileName : Option String
deriving Repr, DecidableEq

/-- One entry of `value.messages` in a webhook document;
`textBody` stands for `message.text?.body`.  The sender field is the
JavaScript `from` property. -/
structure WebhookMessage where
  id : Option String
  «from» : Option String
  type : Option String
  textBody : Option String
  timestamp : Option String
deriving Repr, DecidableEq

/-- One entry of `value.statuses` in a webhook document. -/
structure WebhookStatus where
  id : Option String
  meta_msg_id : Option String
  status : String
deriving Repr, DecidableEq

/-- The `value` object of a webhook document
(`metaData.entry[0].changes[0].value`); absent `contacts` / `messages` /
`statuses` arrays are modelled as empty lists. -/
structure WebhookValue where
  display_phone_number : Option String
  contacts : List WebhookContact
  messages : List WebhookMessage
  statuses : List WebhookStatus
deriving Repr, DecidableEq

/-- `getContactInfoFromWebhook(fromNumber, contacts)`: default `waId` is
the sender itself; with a non-empty contact list, take the exact
`wa_id === fromNumber` match or fall back to the first contact, and use
its truthy profile name. Returns `(waId, name)`. -/
def getContactInfoFromWebhook (fromNumber : Option String)
    (contacts : List WebhookContact) : Option String × String :=
  match contacts with
  | [] => (fromNumber, "Unknown")
  | c0 :: _ =>
    let contact := (contacts.find? (fun c => some c.wa_id == fromNumber)).getD c0
    (some contact.wa_id,
      match contact.profileName with
      | some n => if n = "" then "Unknown" else n
      | none => "Unknown")

/-- `createMessageFromWebhook(message, value, businessNumber)`; the
`value` argument is represented by its `contacts` array, the only part
the function reads.  `message.text?.body || ''` and
`message.type || 'text'` keep their JavaScript falsiness semantics, and
`parseInt(message.timestamp) * 1000` is `none` exactly when `parseInt`
gives `NaN`. -/
def createMessageFromWebhook (message : WebhookMessage)
    (contacts : List WebhookContact) (businessNumber : Option String) :
    MessageData :=
  if truthy businessNumber && message.«from» == businessNumber then
    { messageId := message.id
      wa_id := some "business"
      text := jsOrOpt message.textBody ""
      messageType := jsOrOpt message.type "text"
      fromNumber := message.«from»
      toNumber := (contacts.head?).map (·.wa_id)
      contactName := "You"
      timestamp := (message.timestamp.bind parseIntJS).map (· * 1000)
      isOutgoing := true
      status := "sent" }
  else
    let contactInfo := getContactInfoFromWebhook message.«from» contacts
    { messageId := message.id
      wa_id := contactInfo.1
      text := jsOrOpt message.textBody ""
      messageType := jsOrOpt message.type "text"
      fromNumber := message.«from»
      toNumber := businessNumber
      contactName := contactInfo.2
      timestamp := (message.timestamp.bind parseIntJS).map (· * 1000)
      isOutgoing := false
      status := "received" }

/-- The closed `messageType` enum of the Mongoose schema. -/
def messageTypeEnum : List String := ["text", "image", "audio", "video", "document"]

/-- The closed `status` enum of the Mongoose schema. -/
def statusEnum : List String := ["sent", "delivered", "read", "failed", "received"]

/-- Mongoose document validation of `models/Message.js`: `required`
string paths reject empty strings, and the two enum paths must hold a
listed value. -/
def validRecord (r : MessageRecord) : Bool :=
  r.messageId ≠ "" && r.wa_id ≠ "" && r.fromNumber ≠ "" && r.toNumber ≠ "" &&
  messageTypeEnum.contains r.messageType && statusEnum.contains r.status

/-- Mongoose casting plus validation of a raw message object: all
`required` paths must be present (`some`), the timestamp must be a
number (not `NaN`), and `validRecord` must hold; otherwise
`new Message(data).save()` raises and `saveMessage` catches. -/
def mkRecord? (m : MessageData) : Option MessageRecord :=
  match m.messageId, m.wa_id, m.fromNumber, m.toNumber, m.timestamp with
  | some mid, some w, some f, some t, some ts =>
    let r : MessageRecord :=
      { messageId := mid, wa_id := w, text := m.text,
        messageType := m.messageType, fromNumber := f, toNumber := t,
        contactName := m.contactName, timestamp := ts,
        isOutgoing := m.isOutgoing, status := m.status }
    if validRecord r then some r else none
  | _, _, _, _, _ => none

/-- `saveMessage(messageData)`: `findOne` by `messageId` first — an
existing record means return `false` with the store untouched; otherwise
save, which validates (an invalid document raises, is caught, and leaves
the store untouched) or appends. -/
def saveMessage (store : List MessageRecord) (m : MessageData) :
    List MessageRecord :=
  match mkRecord? m with
  | none => store
  | some rec =>
    if store.any (fun r => r.messageId == rec.messageId) then store
    else store ++ [rec]

/-- `processMessages(messages, value, businessNumber)`: save each entry
in payload order. -/
def processMessages (store : List MessageRecord)
    (messages : List WebhookMessage) (contacts : List WebhookContact)
    (businessNumber : Option String) : List MessageRecord :=
  messages.foldl
    (fun s msg => saveMessage s (createMessageFromWebhook msg contacts businessNumber))
    store

/-- `updateMessageStatus(messageId, status)`: Mongoose `updateOne`
mutates the `status` field of the first document whose `messageId`
matches, and is a logged no-op when none matches. -/
def updateMessageStatus (store : List MessageRecord) (mid st : String) :
    List MessageRecord :=
  match store with
  | [] => []
  | r :: rest =>
    if r.messageId = mid then { r with status := st } :: rest
    else r :: updateMessageStatus rest mid st

/-- `status.id || status.meta_msg_id` with JavaScript falsiness. -/
def statusMessageId (u : WebhookStatus) : Option String :=
  if truthy u.id then u.id else u.meta_msg_id

/-- The resolved target of one status entry: `some (messageId, status)`
when `processStatusUpdates` would call `updateMessageStatus`, `none`
when the entry is skipped (`if (messageId)` fails). -/
def resolvedStatus (u : WebhookStatus) : Option (String × String) :=
  match statusMessageId u with
  | some mid => if mid = "" then none else some (mid, u.status)
  | none => none

/-- Apply one status entry to the store. -/
def applyStatus (store : List MessageRecord) (u : WebhookStatus) :
    List MessageRecord :=
  match resolvedStatus u with
  | some p => updateMessageStatus store p.1 p.2
  | none => store

/-- `processStatusUpdates(statuses)`: apply each delivery report in
payload order. -/
def processStatusUpdates (store : List MessageRecord)
    (statuses : List WebhookStatus) : List MessageRecord :=
  statuses.foldl applyStatus store

/-- `extractWebhookData`'s business-number resolution:
`value.metadata?.display_phone_number || process.env.BUSINESS_PHONE_NUMBER`. -/
def resolveBusinessNumber (v : WebhookValue) (env : Option String) :
    Option String :=
  match v.display_phone_number with
  | none => env
  | some d => if d = "" then env else some d

/-- `processWebhookFile` on one successfully parsed document: process
the messages (when the array is non-empty), then the status updates. -/
def processWebhookDocument (store : List MessageRecord) (v : WebhookValue)
    (env : Option String) : List MessageRecord :=
  let bn := resolveBusinessNumber v env
  let store1 :=
    if v.messages.isEmpty then store
    else processMessages store v.messages v.contacts bn
  if v.statuses.isEmpty then store1
  else processStatusUpdates store1 v.statuses

/-- The distinct `wa_id` values over inbound records —
`Message.distinct('wa_id', { isOutgoing: false })`, shared by
`getConversations` and `getHealth`. -/
def distinctInboundWaIds (store : List MessageRecord) : List String :=
  ((store.filter (fun r => r.isOutgoing == false)).map (·.wa_id)).dedup

/-- A derived conversation summary (the object pushed by
`getConversations`). -/
structure ConversationSummary where
  wa_id : String
  phoneNumber : String
  contactName : String
  lastMessage : String
  lastMessageTime : Int
  isLastOutgoing : Bool
deriving Repr, DecidableEq

/-- `buildConversationSummary(waId)`: the most recent record (timestamp
descending) among records whose `wa_id` or `toNumber` is `waId`, plus
one inbound record for contact details; `null` when no record matches. -/
def buildConversationSummary (store : List MessageRecord) (waId : String) :
    Option ConversationSummary :=
  let matching := store.filter (fun r => r.wa_id == waId || r.toNumber == waId)
  let lastMessage? :=
    (matching.insertionSort (fun a b => b.timestamp ≤ a.timestamp)).head?
  let contactInfo? :=
    (store.filter (fun r => r.wa_id == waId && r.isOutgoing == false)).head?
  match lastMessage? with
  | none => none
  | some lm =>
    some { wa_id := waId
           phoneNumber :=
             match contactInfo? with
             | some ci => jsOr ci.fromNumber waId
             | none => waId
           contactName :=
             match contactInfo? with
             | some ci => jsOr ci.contactName "Unknown"
             | none => "Unknown"
           lastMessage := jsOr lm.text "No message"
           lastMessageTime := lm.timestamp
           isLastOutgoing := lm.isOutgoing }

/-- `getConversations`: one summary per distinct inbound `wa_id`
(dropping `null` summaries), sorted by `lastMessageTime` descending. -/
def getConversations (store : List MessageRecord) : List ConversationSummary :=
  let senderIds := distinctInboundWaIds store
  let conversations := senderIds.filterMap (buildConversationSummary store)
  conversations.insertionSort (fun a b => b.lastMessageTime ≤ a.lastMessageTime)

/-- `getMessages` for one `waId`: all records whose `wa_id` or
`toNumber` matches, sorted by `timestamp` ascending. -/
def getMessages (store : List MessageRecord) (waId : String) :
    List MessageRecord :=
  (store.filter (fun r => r.wa_id == waId || r.toNumber == waId)).insertionSort
    (fun a b => a.timestamp ≤ b.timestamp)

/-- `validateMessageInput(text, waId)`: `some` error exactly when the
controller answers 400; mirrors `!text || !text.trim()` and `!waId`. -/
def validateMessageInput (text waId : Option String) : Option String :=
  match text with
  | none => some "Message text is required"
  | some t =>
    if t = "" || jsTrim t = "" then some "Message text is required"
    else if truthy waId = false then some "wa_id is required"
    else none

/-- `getContactName(waId, providedName)`: reuse the contact name of an
inbound record of the conversation, else the caller-provided name, else
`'Unknown'` (each step with JavaScript falsiness). -/
def getContactName (store : List MessageRecord) (waId : String)
    (providedName : Option String) : String :=
  match (store.filter (fun r => r.wa_id == waId && r.isOutgoing == false)).head? with
  | some r => jsOr r.contactName (jsOrOpt providedName "Unknown")
  | none => jsOrOpt providedName "Unknown"

/-- `createOutgoingMessage(waId, text, businessPhone, contactName)`.
The generated id `'msg_' + Date.now() + '_' + random` and `Date.now()`
are modelled as the parameters `freshId` and `now`; the `contactName`
argument is ignored by the source, which hard-codes `'You'`. -/
def createOutgoingMessage (waId text businessPhone contactName : String)
    (freshId : String) (now : Int) : MessageRecord :=
  { messageId := freshId
    wa_id := "business"
    text := jsTrim text
    messageType := "text"
    fromNumber := businessPhone
    toNumber := waId
    contactName := "You"
    timestamp := now
    isOutgoing := true
    status := "sent" }

/-- The observable outcome of `sendMessage`: the new store and the
`error` string of a `{success:false, error}` response (`none` on
success). -/
structure SendOutcome where
  store : List MessageRecord
  error : Option String
deriving Repr, DecidableEq

/-- `sendMessage`: validate the input, build the outgoing record, and
save it directly (`new Message(data).save()`): Mongoose validation
failure answers 400, a duplicate-key violation of the unique `messageId`
index answers 400, otherwise the record is appended. -/
def sendMessage (store : List MessageRecord) (waId text contactName : Option String)
    (envBusinessPhone : Option String) (freshId : String) (now : Int) :
    SendOutcome :=
  match validateMessageInput text waId with
  | some err => { store := store, error := some err }
  | none =>
    match text, waId with
    | some t, some w =>
      let businessPhone := jsOrOpt envBusinessPhone "+1234567890"
      let contactNameToUse := getContactName store w contactName
      let messageData := createOutgoingMessage w t businessPhone contactNameToUse freshId now
      if validRecord messageData = false then
        { store := store, error := some "Validation failed" }
      else if store.any (fun r => r.messageId == messageData.messageId) then
        { store := store, error := some "Message with this ID already exists" }
      else
        { store := store ++ [messageData], error := none }
    | _, _ =>
      -- unreachable: validation already guaranteed both fields present
      { store := store, error := some "Message text is required" }

/-- The statistics of `getHealth` that depend on the store. -/
structure HealthStats where
  totalMessages : Nat
  totalConversations : Nat
deriving Repr, DecidableEq

/-- `getHealth`: `countDocuments()` and the length of
`distinct('wa_id', {isOutgoing:false})`. -/
def getHealth (store : List MessageRecord) : HealthStats :=
  { totalMessages := store.length
    totalConversations := (distinctInboundWaIds store).length }

/-! ### Proof devices for status-update reasoning -/

/-- The action of one status entry on a single record: rewrite the
`status` field when the entry resolves to this record's `messageId`. -/
def recStatusStep (r : MessageRecord) (u : WebhookStatus) : MessageRecord :=
  match resolvedStatus u with
  | some p => if r.messageId = p.1 then { r with status := p.2 } else r
  | none => r

/-- The cumulative action of a status list on the head record of the
store. -/
def headStatusUpd (r : MessageRecord) (S : List WebhookStatus) : MessageRecord :=
  S.foldl recStatusStep r

/-- Whether a status entry resolves to the given `messageId`. -/
def hitsId (u : WebhookStatus) (i : String) : Bool :=
  match resolvedStatus u with
  | some p => p.1 == i
  | none => false

/-- The status value written last by a status list onto records with the
given `messageId` (later entries win). -/
def lastHit (i : String) : List WebhookStatus → Option String
  | [] => none
  | u :: S =>
    match lastHit i S with
    | some st => some st
    | none =>
      match resolvedStatus u with
      | some p => if p.1 = i then some p.2 else none
      | none => none

/-! ### Concrete sample inputs (used by witness and counterexample theorems) -/

/-- The inbound message of the spec's ingestion scenario. -/
def msgInbound : WebhookMessage :=
  { id := some "m1", «from» := some "+1111", type := some "text",
    textBody := some "hi", timestamp := some "1000" }

/-- The contact list of the spec's ingestion scenario. -/
def contactsAlice : List WebhookContact :=
  [{ wa_id := "+1111", profileName := some "Alice" }]

/-- The webhook document of the spec's ingestion scenario. -/
def docInbound : WebhookValue :=
  { display_phone_number := some "+9999", contacts := contactsAlice,
    messages := [msgInbound], statuses := [] }

/-- The record that ingesting `docInbound` into an empty store produces. -/
def recInbound : MessageRecord :=
  { messageId := "m1", wa_id := "+1111", text := "hi", messageType := "text",
    fromNumber := "+1111", toNumber := "+9999", contactName := "Alice",
    timestamp := 1000000, isOutgoing := false, status := "received" }

/-- A business-sent webhook message (sender equals the business address). -/
def msgOutbound : WebhookMessage :=
  { id := some "m2", «from» := some "+9999", type := some "text",
    textBody := some "yo", timestamp := some "1000" }

/-- The record that ingesting `msgOutbound` produces. -/
def recOutbound : MessageRecord :=
  { messageId := "m2", wa_id := "business", text := "yo", messageType := "text",
    fromNumber := "+9999", toNumber := "+1111", contactName := "You",
    timestamp := 1000000, isOutgoing := true, status := "sent" }

/-- A webhook message whose timestamp string parses to a negative number. -/
def msgNegTs : WebhookMessage :=
  { id := some "m3", «from» := some "+1111", type := some "text",
    textBody := some "old", timestamp := some "-5" }

/-- A webhook document carrying `msgNegTs`. -/
def docNegTs : WebhookValue :=
  { display_phone_number := some "+9999", contacts := contactsAlice,
    messages := [msgNegTs], statuses := [] }

/-- A webhook message whose timestamp string is not numeric. -/
def msgBadTs : WebhookMessage :=
  { id := some "m4", «from» := some "+1111", type := some "text",
    textBody := some "junk", timestamp := some "soon" }

/-- Two stored inbound records of the same conversation sharing one
timestamp (used to exhibit a tie in the sort order). -/
def recTieA : MessageRecord :=
  { messageId := "a", wa_id := "+1111", text := "x", messageType := "text",
    fromNumber := "+1111", toNumber := "+9999", contactName := "Alice",
    timestamp := 5, isOutgoing := false, status := "received" }

/-- The second record of the tied pair; differs from `recTieA` outside
the timestamp. -/
def recTieB : MessageRecord :=
  { recTieA with messageId := "b", text := "y" }

/-- The record that ingesting `msgNegTs` produces (timestamp parses to
`-5`, stored as `-5000`). -/
def recNegTs : MessageRecord :=
  { messageId := "m3", wa_id := "+1111", text := "old", messageType := "text",
    fromNumber := "+1111", toNumber := "+9999", contactName := "Alice",
    timestamp := -5000, isOutgoing := false, status := "received" }

/-- A webhook document carrying the business-sent `msgOutbound`. -/
def docOutbound : WebhookValue :=
  { display_phone_number := some "+9999", contacts := contactsAlice,
    messages := [msgOutbound], statuses := [] }

/-- The conversation summary derived from `[recInbound, recOutbound]`. -/
def summaryAlice : ConversationSummary :=
  { wa_id := "+1111", phoneNumber := "+1111", contactName := "Alice",
    lastMessage := "hi", lastMessageTime := 1000000, isLastOutgoing := false }

/-! ### Order instances for the sort relations -/

instance : IsTotal MessageRecord (fun a b => a.timestamp ≤ b.timestamp) :=
  ⟨fun a b => Int.le_total a.timestamp b.timestamp⟩

instance : IsTrans MessageRecord (fun a b => a.timestamp ≤ b.timestamp) :=
  ⟨fun _ _ _ h h' => le_trans h h'⟩

/-! ### Helper lemmas: persistence -/

/-- A successfully validated raw message keeps every field: the record's
fields are exactly the (present) fields of the raw object, and the
record passes `validRecord`. -/
theorem mkRecord?_fields {m : MessageData} {r : MessageRecord}
    (h : mkRecord? m = some r) :
    m.messageId = some r.messageId ∧ m.wa_id = some r.wa_id ∧
    m.fromNumber = some r.fromNumber ∧ m.toNumber = some r.toNumber ∧
    m.timestamp = some r.timestamp ∧ r.text = m.text ∧
    r.messageType = m.messageType ∧ r.contactName = m.contactName ∧
    r.isOutgoing = m.isOutgoing ∧ r.status = m.status ∧
    validRecord r = true := by
  cases hmi : m.messageId <;> cases hw : m.wa_id <;>
    cases hf : m.fromNumber <;> cases ht : m.toNumber <;>
    cases hts : m.timestamp <;>
    simp [mkRecord?, hmi, hw, hf, ht, hts] at h
  rcases h with ⟨hv, hr⟩
  subst hr
  simp_all

theorem saveMessage_invalid {m : MessageData} (s : List MessageRecord)
    (h : mkRecord? m = none) : saveMessage s m = s := by
  simp [saveMessage, h]

theorem saveMessage_dup {m : MessageData} {rec : MessageRecord}
    {s : List MessageRecord} (h : mkRecord? m = some rec)
    (hdup : ∃ r ∈ s, r.messageId = rec.messageId) :
    saveMessage s m = s := by
  have : s.any (fun r => r.messageId == rec.messageId) = true := by
    rw [List.any_eq_true]
    rcases hdup with ⟨r, hr, he⟩
    exact ⟨r, hr, by simp [he]⟩
  simp [saveMessage, h, this]

theorem saveMessage_fresh {m : MessageData} {rec : MessageRecord}
    {s : List MessageRecord} (h : mkRecord? m = some rec)
    (hfresh : ∀ r ∈ s, r.messageId ≠ rec.messageId) :
    saveMessage s m = s ++ [rec] := by
  have : s.any (fun r => r.messageId == rec.messageId) = false := by
    rw [Bool.eq_false_iff]
    intro hc
    rw [List.any_eq_true] at hc
    rcases hc with ⟨r, hr, he⟩
    exact hfresh r hr (by simpa using he)
  simp [saveMessage, h, this]

/-- `saveMessage` either leaves the store alone or appends the record
validated from its argument. -/
theorem saveMessage_cases (s : List MessageRecord) (m : MessageData) :
    saveMessage s m = s ∨
    ∃ rec, mkRecord? m = some rec ∧ saveMessage s m = s ++ [rec] := by
  unfold saveMessage
  cases h : mkRecord? m with
  | none => exact Or.inl rfl
  | some rec =>
    by_cases hd : s.any (fun r => r.messageId == rec.messageId) = true
    · simp [hd]
    · simp only [Bool.not_eq_true] at hd
      simp [hd]

/-- If `saveMessage` grew the store, the appended record is the
validation of its argument. -/
theorem saveMessage_append_inv {s : List MessageRecord} {m : MessageData}
    {rec : MessageRecord} (h : saveMessage s m = s ++ [rec]) :
    mkRecord? m = some rec := by
  rcases saveMessage_cases s m with hs | ⟨rec', hmk, hs⟩
  · rw [hs] at h
    exact absurd (congrArg List.length h) (by simp)
  · rw [hs] at h
    have : rec' = rec := by
      have := List.append_cancel_left h
      simpa using this
    rwa [this] at hmk

theorem mem_saveMessage {r : MessageRecord} {s : List MessageRecord}
    (m : MessageData) (h : r ∈ s) : r ∈ saveMessage s m := by
  rcases saveMessage_cases s m with hs | ⟨rec, _, hs⟩ <;> rw [hs] <;> simp [h]

/-! ### Helper lemmas: status updates -/

theorem updateMessageStatus_length (s : List MessageRecord) (mid st : String) :
    (updateMessageStatus s mid st).length = s.length := by
  induction s with
  | nil => rfl
  | cons r rest ih =>
    by_cases h : r.messageId = mid <;> simp [updateMessageStatus, h, ih]

theorem updateMessageStatus_not_found {s : List MessageRecord} {mid : String}
    (st : String) (h : ∀ r ∈ s, r.messageId ≠ mid) :
    updateMessageStatus s mid st = s := by
  induction s with
  | nil => rfl
  | cons r rest ih =>
    have hr : r.messageId ≠ mid := h r (by simp)
    simp [updateMessageStatus, hr]
    exact ih fun x hx => h x (by simp [hx])

theorem updateMessageStatus_map_messageId (s : List MessageRecord)
    (mid st : String) :
    (updateMessageStatus s mid st).map (·.messageId) = s.map (·.messageId) := by
  induction s with
  | nil => rfl
  | cons r rest ih =>
    by_cases h : r.messageId = mid <;> simp [updateMessageStatus, h, ih]

/-- A status update with a matching record rewrites exactly the first
matching position, only in its `status` field. -/
theorem updateMessageStatus_found {s : List MessageRecord} {mid : String}
    (st : String) (h : ∃ r ∈ s, r.messageId = mid) :
    ∃ i, i < s.length ∧ (s.getD i default).messageId = mid ∧
      (∀ j, j < i → (s.getD j default).messageId ≠ mid) ∧
      updateMessageStatus s mid st =
        s.set i { s.getD i default with status := st } := by
  induction s with
  | nil => simp at h
  | cons r rest ih =>
    by_cases hr : r.messageId = mid
    · exact ⟨0, by simp, by simpa using hr, by simp,
        by simp [updateMessageStatus, hr]⟩
    · have h' : ∃ x ∈ rest, x.messageId = mid := by
        rcases h with ⟨x, hx, he⟩
        rcases List.mem_cons.mp hx with rfl | hx'
        · exact absurd he hr
        · exact ⟨x, hx', he⟩
      rcases ih h' with ⟨i, hi, hmid, hfirst, heq⟩
      refine ⟨i + 1, by simpa using hi, by simpa using hmid, ?_, ?_⟩
      · intro j hj
        cases j with
        | zero => simpa using hr
        | succ j' => simpa using hfirst j' (by omega)
      · simp [updateMessageStatus, hr, heq]

/-- Updating a status preserves any predicate that does not depend on
the `status` field. -/
theorem updateMessageStatus_preserves {P : MessageRecord → Prop}
    (hP : ∀ r st, P r → P { r with status := st })
    {s : List MessageRecord} (mid st : String) (h : ∀ r ∈ s, P r) :
    ∀ r ∈ updateMessageStatus s mid st, P r := by
  induction s with
  | nil => intro x hx; simp [updateMessageStatus] at hx
  | cons r rest ih =>
    intro x hx
    by_cases hr : r.messageId = mid
    · have hx2 : x = { r with status := st } ∨ x ∈ rest := by
        simpa [updateMessageStatus, hr] using hx
      rcases hx2 with hx1 | hx'
      · rw [hx1]
        exact hP r st (h r (by simp))
      · exact h x (by simp [hx'])
    · have hx2 : x = r ∨ x ∈ updateMessageStatus rest mid st := by
        simpa [updateMessageStatus, hr] using hx
      rcases hx2 with hx1 | hx'
      · rw [hx1]
        exact h r (by simp)
      · exact ih (fun y hy => h y (by simp [hy])) x hx'

/-! ### Helper lemmas: status-list idempotence -/

theorem recStatusStep_messageId (r : MessageRecord) (u : WebhookStatus) :
    (recStatusStep r u).messageId = r.messageId := by
  unfold recStatusStep
  cases resolvedStatus u with
  | none => rfl
  | some p => by_cases h : r.messageId = p.1 <;> simp [h]

theorem recStatusStep_set_status (r : MessageRecord) (u : WebhookStatus)
    (st : String) :
    { recStatusStep r u with status := st } = { r with status := st } := by
  unfold recStatusStep
  cases resolvedStatus u with
  | none => rfl
  | some p => by_cases h : r.messageId = p.1 <;> simp [h]

theorem headStatusUpd_nil (r : MessageRecord) : headStatusUpd r [] = r := rfl

theorem headStatusUpd_cons (r : MessageRecord) (u : WebhookStatus)
    (S : List WebhookStatus) :
    headStatusUpd r (u :: S) = headStatusUpd (recStatusStep r u) S := rfl

theorem headStatusUpd_messageId (S : List WebhookStatus) (r : MessageRecord) :
    (headStatusUpd r S).messageId = r.messageId := by
  induction S generalizing r with
  | nil => rfl
  | cons u S ih => exact (ih (recStatusStep r u)).trans (recStatusStep_messageId r u)

theorem processStatusUpdates_cons (s : List MessageRecord) (u : WebhookStatus)
    (S : List WebhookStatus) :
    processStatusUpdates s (u :: S) = processStatusUpdates (applyStatus s u) S := rfl

theorem applyStatus_nil (u : WebhookStatus) : applyStatus [] u = [] := by
  unfold applyStatus
  cases resolvedStatus u <;> simp [updateMessageStatus]

theorem processStatusUpdates_nil_store (S : List WebhookStatus) :
    processStatusUpdates [] S = [] := by
  induction S with
  | nil => rfl
  | cons u S ih => rw [processStatusUpdates_cons, applyStatus_nil]; exact ih

/-- Status processing acts on the head record via `headStatusUpd` and on
the tail via the entries that do not resolve to the head's id. -/
theorem processStatusUpdates_cons_store (S : List WebhookStatus)
    (r : MessageRecord) (rest : List MessageRecord) :
    processStatusUpdates (r :: rest) S =
      headStatusUpd r S ::
        processStatusUpdates rest (S.filter (fun u => ! hitsId u r.messageId)) := by
  induction S generalizing r rest with
  | nil => rfl
  | cons u S ih =>
    rw [processStatusUpdates_cons]
    cases hru : resolvedStatus u with
    | none =>
      have ha : applyStatus (r :: rest) u = r :: rest := by
        unfold applyStatus; rw [hru]
      have hh : hitsId u r.messageId = false := by unfold hitsId; rw [hru]
      have hstep : recStatusStep r u = r := by unfold recStatusStep; rw [hru]
      have ha2 : applyStatus rest u = rest := by unfold applyStatus; rw [hru]
      rw [ha, ih r rest, headStatusUpd_cons, hstep,
        List.filter_cons_of_pos (by simp [hh]), processStatusUpdates_cons, ha2]
    | some p =>
      by_cases hmid : r.messageId = p.1
      · have ha : applyStatus (r :: rest) u = { r with status := p.2 } :: rest := by
          unfold applyStatus; rw [hru]; simp [updateMessageStatus, hmid]
        have hh : hitsId u r.messageId = true := by
          unfold hitsId; rw [hru]; exact beq_iff_eq.mpr hmid.symm
        have hstep : recStatusStep r u = { r with status := p.2 } := by
          unfold recStatusStep; rw [hru]; simp [hmid]
        rw [ha, ih _ rest, headStatusUpd_cons, hstep,
          List.filter_cons_of_neg (by simp [hh])]
      · have ha : applyStatus (r :: rest) u =
            r :: updateMessageStatus rest p.1 p.2 := by
          unfold applyStatus; rw [hru]; simp [updateMessageStatus, hmid]
        have hh : hitsId u r.messageId = false := by
          unfold hitsId; rw [hru]
          exact beq_eq_false_iff_ne.mpr (Ne.symm hmid)
        have hstep : recStatusStep r u = r := by
          unfold recStatusStep; rw [hru]; simp [hmid]
        have ha2 : applyStatus rest u = updateMessageStatus rest p.1 p.2 := by
          unfold applyStatus; rw [hru]
        rw [ha, ih r _, headStatusUpd_cons, hstep,
          List.filter_cons_of_pos (by simp [hh]), processStatusUpdates_cons, ha2]

theorem headStatusUpd_eq_lastHit (S : List WebhookStatus) (r : MessageRecord) :
    headStatusUpd r S =
      match lastHit r.messageId S with
      | some st => { r with status := st }
      | none => r := by
  induction S generalizing r with
  | nil => rfl
  | cons u S ih =>
    rw [headStatusUpd_cons, ih (recStatusStep r u)]
    cases hls : lastHit r.messageId S with
    | some st =>
      have h1 : lastHit (recStatusStep r u).messageId S = some st := by
        rw [recStatusStep_messageId]; exact hls
      have h2 : lastHit r.messageId (u :: S) = some st := by
        rw [lastHit, hls]
      rw [h1, h2]
      exact recStatusStep_set_status r u st
    | none =>
      have h1 : lastHit (recStatusStep r u).messageId S = none := by
        rw [recStatusStep_messageId]; exact hls
      rw [h1]
      cases hru : resolvedStatus u with
      | none =>
        have hstep : recStatusStep r u = r := by unfold recStatusStep; rw [hru]
        have h2 : lastHit r.messageId (u :: S) = none := by
          rw [lastHit, hls, hru]
        rw [h2]
        exact hstep
      | some p =>
        by_cases hmid : p.1 = r.messageId
        · have hstep : recStatusStep r u = { r with status := p.2 } := by
            unfold recStatusStep; rw [hru]; simp [hmid.symm]
          have h2 : lastHit r.messageId (u :: S) = some p.2 := by
            rw [lastHit, hls, hru]; simp [hmid]
          rw [h2]
          exact hstep
        · have hstep : recStatusStep r u = r := by
            unfold recStatusStep; rw [hru]
            simp
            intro hc
            exact absurd hc.symm hmid
          have h2 : lastHit r.messageId (u :: S) = none := by
            rw [lastHit, hls, hru]; simp [hmid]
          rw [h2]
          exact hstep

theorem headStatusUpd_idem (S : List WebhookStatus) (r : MessageRecord) :
    headStatusUpd (headStatusUpd r S) S = headStatusUpd r S := by
  cases hls : lastHit r.messageId S with
  | none =>
    have h1 : headStatusUpd r S = r := by rw [headStatusUpd_eq_lastHit, hls]
    rw [h1, h1]
  | some st =>
    have h1 : headStatusUpd r S = { r with status := st } := by
      rw [headStatusUpd_eq_lastHit, hls]
    rw [h1]
    have h2 : lastHit ({ r with status := st } : MessageRecord).messageId S = some st := by
      simpa using hls
    rw [headStatusUpd_eq_lastHit, h2]

/-- Applying the same status list twice is the same as applying it
once. -/
theorem processStatusUpdates_idem (s : List MessageRecord) :
    ∀ S : List WebhookStatus,
      processStatusUpdates (processStatusUpdates s S) S =
        processStatusUpdates s S := by
  induction s with
  | nil =>
    intro S
    rw [processStatusUpdates_nil_store, processStatusUpdates_nil_store]
  | cons r rest ih =>
    intro S
    rw [processStatusUpdates_cons_store S r rest,
      processStatusUpdates_cons_store S (headStatusUpd r S),
      headStatusUpd_messageId, headStatusUpd_idem,
      ih (S.filter (fun u => ! hitsId u r.messageId))]

theorem applyStatus_map_messageId (s : List MessageRecord) (u : WebhookStatus) :
    (applyStatus s u).map (·.messageId) = s.map (·.messageId) := by
  unfold applyStatus
  cases resolvedStatus u with
  | none => rfl
  | some p => exact updateMessageStatus_map_messageId s p.1 p.2

theorem processStatusUpdates_map_messageId (S : List WebhookStatus)
    (s : List MessageRecord) :
    (processStatusUpdates s S).map (·.messageId) = s.map (·.messageId) := by
  induction S generalizing s with
  | nil => rfl
  | cons u S ih =>
    rw [processStatusUpdates_cons]
    exact (ih (applyStatus s u)).trans (applyStatus_map_messageId s u)

/-! ### Helper lemmas: message processing and whole documents -/

theorem processMessages_cons (s : List MessageRecord) (m : WebhookMessage)
    (M : List WebhookMessage) (C : List WebhookContact) (B : Option String) :
    processMessages s (m :: M) C B =
      processMessages (saveMessage s (createMessageFromWebhook m C B)) M C B := rfl

theorem mem_processMessages {r : MessageRecord} {s : List MessageRecord}
    (M : List WebhookMessage) (C : List WebhookContact) (B : Option String)
    (h : r ∈ s) : r ∈ processMessages s M C B := by
  induction M generalizing s with
  | nil => exact h
  | cons m M ih => exact ih (mem_saveMessage _ h)

theorem saveMessage_id_present {m : MessageData} {rec : MessageRecord}
    (s : List MessageRecord) (h : mkRecord? m = some rec) :
    ∃ r ∈ saveMessage s m, r.messageId = rec.messageId := by
  by_cases hd : ∃ r ∈ s, r.messageId = rec.messageId
  · rcases hd with ⟨r, hr, he⟩
    rw [saveMessage_dup h ⟨r, hr, he⟩]
    exact ⟨r, hr, he⟩
  · push_neg at hd
    rw [saveMessage_fresh h hd]
    exact ⟨rec, by simp, rfl⟩

theorem processMessages_establishes {s : List MessageRecord}
    {M : List WebhookMessage} {C : List WebhookContact} {B : Option String} :
    ∀ m ∈ M, ∀ rec, mkRecord? (createMessageFromWebhook m C B) = some rec →
      ∃ r ∈ processMessages s M C B, r.messageId = rec.messageId := by
  induction M generalizing s with
  | nil => simp
  | cons m M ih =>
    intro m' hm' rec hrec
    rcases List.mem_cons.mp hm' with rfl | hm''
    · rcases saveMessage_id_present s hrec with ⟨r, hr, he⟩
      exact ⟨r, mem_processMessages M C B hr, he⟩
    · exact ih m' hm'' rec hrec

theorem processMessages_noop {s : List MessageRecord}
    {M : List WebhookMessage} {C : List WebhookContact} {B : Option String}
    (h : ∀ m ∈ M, ∀ rec, mkRecord? (createMessageFromWebhook m C B) = some rec →
      ∃ r ∈ s, r.messageId = rec.messageId) :
    processMessages s M C B = s := by
  induction M with
  | nil => rfl
  | cons m M ih =>
    have hsave : saveMessage s (createMessageFromWebhook m C B) = s := by
      cases hmk : mkRecord? (createMessageFromWebhook m C B) with
      | none => exact saveMessage_invalid s hmk
      | some rec => exact saveMessage_dup hmk (h m (by simp) rec hmk)
    rw [processMessages_cons, hsave]
    exact ih fun m' hm' => h m' (by simp [hm'])

theorem saveMessage_nodup {s : List MessageRecord} (m : MessageData)
    (h : (s.map (·.messageId)).Nodup) :
    ((saveMessage s m).map (·.messageId)).Nodup := by
  cases hmk : mkRecord? m with
  | none => rw [saveMessage_invalid s hmk]; exact h
  | some rec =>
    by_cases hd : ∃ r ∈ s, r.messageId = rec.messageId
    · rw [saveMessage_dup hmk hd]; exact h
    · push_neg at hd
      rw [saveMessage_fresh hmk hd]
      simp only [List.map_append, List.map_cons, List.map_nil]
      rw [List.nodup_append]
      refine ⟨h, by simp, ?_⟩
      intro a ha hb
      rcases List.mem_map.mp ha with ⟨r, hr, he⟩
      have hab : a = rec.messageId := by simpa using hb
      exact hd r hr (he.trans hab)

theorem processMessages_nodup {s : List MessageRecord}
    (M : List WebhookMessage) (C : List WebhookContact) (B : Option String)
    (h : (s.map (·.messageId)).Nodup) :
    ((processMessages s M C B).map (·.messageId)).Nodup := by
  induction M generalizing s with
  | nil => exact h
  | cons m M ih => exact ih (saveMessage_nodup _ h)

theorem processWebhookDocument_eq (s : List MessageRecord) (v : WebhookValue)
    (env : Option String) :
    processWebhookDocument s v env =
      processStatusUpdates
        (processMessages s v.messages v.contacts (resolveBusinessNumber v env))
        v.statuses := by
  by_cases hm : v.messages.isEmpty
  · have hm' : v.messages = [] := by simpa using hm
    by_cases hs : v.statuses.isEmpty
    · have hs' : v.statuses = [] := by simpa using hs
      simp [processWebhookDocument, hm, hs, hm', hs', processMessages,
        processStatusUpdates]
    · simp [processWebhookDocument, hm, hs, hm', processMessages]
  · by_cases hs : v.statuses.isEmpty
    · have hs' : v.statuses = [] := by simpa using hs
      simp [processWebhookDocument, hm, hs, hs', processStatusUpdates]
    · simp [processWebhookDocument, hm, hs]

/-- Ingesting the same webhook document twice gives the same store as
ingesting it once. -/
theorem processWebhookDocument_idem (s : List MessageRecord)
    (v : WebhookValue) (env : Option String) :
    processWebhookDocument (processWebhookDocument s v env) v env =
      processWebhookDocument s v env := by
  rw [processWebhookDocument_eq, processWebhookDocument_eq]
  have h1 : processMessages
      (processStatusUpdates
        (processMessages s v.messages v.contacts (resolveBusinessNumber v env))
        v.statuses)
      v.messages v.contacts (resolveBusinessNumber v env) =
      processStatusUpdates
        (processMessages s v.messages v.contacts (resolveBusinessNumber v env))
        v.statuses := by
    apply processMessages_noop
    intro m hm rec hrec
    rcases processMessages_establishes (s := s) m hm rec hrec with ⟨r, hr, he⟩
    have hmem : rec.messageId ∈
        (processStatusUpdates
          (processMessages s v.messages v.contacts (resolveBusinessNumber v env))
          v.statuses).map (·.messageId) := by
      rw [processStatusUpdates_map_messageId]
      exact List.mem_map.mpr ⟨r, hr, he⟩
    rcases List.mem_map.mp hmem with ⟨r', hr', he'⟩
    exact ⟨r', hr', he'⟩
  rw [h1, processStatusUpdates_idem]

/-- Claim C2: ingestion is idempotent per `messageId`: processing a
webhook document twice equals processing it once; a store whose
`messageId`s are pairwise distinct keeps that property through
ingestion (so each distinct `messageId` has exactly one record); and
saving a message whose `messageId` is already stored leaves the store
exactly as it was — no overwrite of any field. -/
theorem claim_C2 (s : List MessageRecord) (v : WebhookValue)
    (env : Option String) :
    processWebhookDocument (processWebhookDocument s v env) v env =
      processWebhookDocument s v env
    ∧ ((s.map (·.messageId)).Nodup →
        ((processWebhookDocument s v env).map (·.messageId)).Nodup)
    ∧ (∀ m rec, mkRecord? m = some rec →
        (∃ r ∈ s, r.messageId = rec.messageId) → saveMessage s m = s) := by
  refine ⟨processWebhookDocument_idem s v env, ?_, ?_⟩
  · intro h
    rw [processWebhookDocument_eq, processStatusUpdates_map_messageId]
    exact processMessages_nodup v.messages v.contacts
      (resolveBusinessNumber v env) h
  · intro m rec hmk hdup
    exact saveMessage_dup hmk hdup

/-- Witness for claim C2 at a concrete store and document. -/
theorem claim_C2_witness :
    ((processWebhookDocument [] docInbound none).map (·.messageId)).Nodup ∧
    saveMessage [recInbound]
      (createMessageFromWebhook msgInbound contactsAlice (some "+9999")) =
      [recInbound] :=
  ⟨(claim_C2 [] docInbound none).2.1 (by simp),
   (claim_C2 [recInbound] docInbound none).2.2
     (createMessageFromWebhook msgInbound contactsAlice (some "+9999"))
     recInbound (by decide) ⟨recInbound, by simp, by decide⟩⟩

/-- Claim C3: a status update for a stored `messageId` rewrites exactly
one position of the store — only its `status` field — and keeps the
record count; a status update for an unknown `messageId` leaves the
store unchanged (and, being a total function, raises no error). -/
theorem claim_C3 (s : List MessageRecord) (mid st : String) :
    (updateMessageStatus s mid st).length = s.length
    ∧ ((∀ r ∈ s, r.messageId ≠ mid) → updateMessageStatus s mid st = s)
    ∧ ((∃ r ∈ s, r.messageId = mid) →
        ∃ i, i < s.length ∧ (s.getD i default).messageId = mid ∧
          updateMessageStatus s mid st =
            s.set i { s.getD i default with status := st }) := by
  refine ⟨updateMessageStatus_length s mid st,
    fun h => updateMessageStatus_not_found st h, fun h => ?_⟩
  rcases updateMessageStatus_found st h with ⟨i, hi, hmid, _, heq⟩
  exact ⟨i, hi, hmid, heq⟩

/-- Witness for claim C3 at a concrete store. -/
theorem claim_C3_witness :
    updateMessageStatus [recInbound] "zz" "read" = [recInbound] ∧
    (∃ i, i < ([recInbound] : List MessageRecord).length ∧
      (([recInbound] : List MessageRecord).getD i default).messageId = "m1" ∧
      updateMessageStatus [recInbound] "m1" "read" =
        ([recInbound] : List MessageRecord).set i
          { ([recInbound] : List MessageRecord).getD i default with
              status := "read" }) :=
  ⟨(claim_C3 [recInbound] "zz" "read").2.1 (by decide),
   (claim_C3 [recInbound] "m1" "read").2.2 ⟨recInbound, by simp, by decide⟩⟩

/-- Claim C7: ingesting the spec's sample document (one text message
`m1` from `+1111` at epoch second 1000, business `+9999`, contact
Alice) into an empty store stores exactly one record with
`messageId="m1"`, `conversationId="+1111"`, `isOutgoing=false`,
`contactName="Alice"`, `timestamp=1000000` and `status="received"`. -/
theorem claim_C7 : processWebhookDocument [] docInbound none = [recInbound] := by
  decide

/-! ### Helper lemmas: the message constructor -/

theorem mkRecord?_none_of_timestamp {m : MessageData} (h : m.timestamp = none) :
    mkRecord? m = none := by
  cases hmi : m.messageId <;> cases hw : m.wa_id <;> cases hf : m.fromNumber <;>
    cases ht : m.toNumber <;> simp [mkRecord?, hmi, hw, hf, ht, h]

theorem createMessageFromWebhook_timestamp (msg : WebhookMessage)
    (contacts : List WebhookContact) (bn : Option String) :
    (createMessageFromWebhook msg contacts bn).timestamp =
      (msg.timestamp.bind parseIntJS).map (· * 1000) := by
  unfold createMessageFromWebhook
  by_cases hc : (truthy bn && msg.«from» == bn) = true
  · rw [if_pos hc]
  · rw [if_neg hc]

/-- The business branch of `createMessageFromWebhook`, written out. -/
theorem createMessageFromWebhook_pos {msg : WebhookMessage}
    {contacts : List WebhookContact} {bn : Option String}
    (h : (truthy bn && msg.«from» == bn) = true) :
    createMessageFromWebhook msg contacts bn =
      { messageId := msg.id
        wa_id := some "business"
        text := jsOrOpt msg.textBody ""
        messageType := jsOrOpt msg.type "text"
        fromNumber := msg.«from»
        toNumber := (contacts.head?).map (·.wa_id)
        contactName := "You"
        timestamp := (msg.timestamp.bind parseIntJS).map (· * 1000)
        isOutgoing := true
        status := "sent" } := by
  unfold createMessageFromWebhook
  rw [if_pos h]

/-- The inbound branch of `createMessageFromWebhook`, written out. -/
theorem createMessageFromWebhook_neg {msg : WebhookMessage}
    {contacts : List WebhookContact} {bn : Option String}
    (h : (truthy bn && msg.«from» == bn) = false) :
    createMessageFromWebhook msg contacts bn =
      { messageId := msg.id
        wa_id := (getContactInfoFromWebhook msg.«from» contacts).1
        text := jsOrOpt msg.textBody ""
        messageType := jsOrOpt msg.type "text"
        fromNumber := msg.«from»
        toNumber := bn
        contactName := (getContactInfoFromWebhook msg.«from» contacts).2
        timestamp := (msg.timestamp.bind parseIntJS).map (· * 1000)
        isOutgoing := false
        status := "received" } := by
  unfold createMessageFromWebhook
  rw [if_neg (by simp [h])]

/-- A record validated from the webhook constructor that is outgoing
carries the sentinel conversation id. -/
theorem mkRecord?_create_outgoing {msg : WebhookMessage}
    {contacts : List WebhookContact} {bn : Option String} {rec : MessageRecord}
    (hmk : mkRecord? (createMessageFromWebhook msg contacts bn) = some rec)
    (ho : rec.isOutgoing = true) : rec.wa_id = "business" := by
  obtain ⟨-, hw, -, -, -, -, -, -, hio, -, -⟩ := mkRecord?_fields hmk
  by_cases hc : (truthy bn && msg.«from» == bn) = true
  · rw [createMessageFromWebhook_pos hc] at hw
    simpa using hw.symm
  · rw [Bool.not_eq_true] at hc
    rw [createMessageFromWebhook_neg hc] at hio
    rw [ho] at hio
    simp at hio

/-- Claim C1 counterexample: the business-sent entry `msgOutbound`
(sender `+9999` equals the business address, first contact `+1111`)
is stored with `conversationId` (`wa_id`) equal to the sentinel
`"business"`, not the batch's first contact's address `+1111` as the
claim states. -/
theorem claim_C1_counterexample :
    (saveMessage []
        (createMessageFromWebhook msgOutbound contactsAlice (some "+9999"))).map
        (·.wa_id) = ["business"] ∧
    ¬ (saveMessage []
        (createMessageFromWebhook msgOutbound contactsAlice (some "+9999"))).map
        (·.wa_id) = ["+1111"] := by
  decide

/-- Claim C1 (amended): when a stored record results from a webhook
message entry, a business-address sender yields `isOutgoing = true`,
the sentinel `conversationId "business"`, and `toNumber` equal to the
batch's first contact's address; any other sender yields
`isOutgoing = false`, `toNumber` equal to the business address, and
`conversationId` equal to the exact-matching contact's address, else
the first contact's address when contacts exist, else the sender
address itself. -/
theorem claim_C1 (store : List MessageRecord) (msg : WebhookMessage)
    (contacts : List WebhookContact) (bn : Option String) (rec : MessageRecord)
    (hsave : saveMessage store (createMessageFromWebhook msg contacts bn) =
      store ++ [rec]) :
    ((truthy bn && msg.«from» == bn) = true →
      rec.isOutgoing = true ∧ rec.wa_id = "business" ∧
      contacts.head?.map (·.wa_id) = some rec.toNumber)
    ∧ ((truthy bn && msg.«from» == bn) = false →
      rec.isOutgoing = false ∧ bn = some rec.toNumber ∧
      (∀ c, contacts.find? (fun c => some c.wa_id == msg.«from») = some c →
        rec.wa_id = c.wa_id) ∧
      (contacts.find? (fun c => some c.wa_id == msg.«from») = none →
        (∀ c0 cs, contacts = c0 :: cs → rec.wa_id = c0.wa_id) ∧
        (contacts = [] → msg.«from» = some rec.wa_id))) := by
  have hmk := saveMessage_append_inv hsave
  obtain ⟨-, hw, -, ht, -, -, -, -, hio, -, -⟩ := mkRecord?_fields hmk
  constructor
  · intro h
    rw [createMessageFromWebhook_pos h] at hw ht hio
    simp only at hw ht hio
    exact ⟨hio, by simpa using hw.symm, ht⟩
  · intro h
    rw [createMessageFromWebhook_neg h] at hw ht hio
    simp only at hw ht hio
    refine ⟨hio, ht, ?_, ?_⟩
    · intro c hfind
      cases hc : contacts with
      | nil => rw [hc] at hfind; simp at hfind
      | cons c0 cs =>
        rw [hc] at hw hfind
        unfold getContactInfoFromWebhook at hw
        simp only at hw
        rw [hfind] at hw
        simp only [Option.getD_some] at hw
        exact (Option.some.inj hw).symm
    · intro hnone
      constructor
      · intro c0 cs hc
        rw [hc] at hw hnone
        unfold getContactInfoFromWebhook at hw
        simp only at hw
        rw [hnone] at hw
        simp only [Option.getD_none] at hw
        exact (Option.some.inj hw).symm
      · intro hc
        rw [hc] at hw
        unfold getContactInfoFromWebhook at hw
        simpa using hw

/-- Witness for claim C1: both branches applied at a concrete ingested
record. -/
theorem claim_C1_witness :
    (recOutbound.isOutgoing = true ∧ recOutbound.wa_id = "business" ∧
      contactsAlice.head?.map (·.wa_id) = some recOutbound.toNumber) ∧
    (recInbound.isOutgoing = false ∧ some "+9999" = some recInbound.toNumber) := by
  constructor
  · exact (claim_C1 [] msgOutbound contactsAlice (some "+9999") recOutbound
      (by decide)).1 (by decide)
  · have h := (claim_C1 [] msgInbound contactsAlice (some "+9999") recInbound
      (by decide)).2 (by decide)
    exact ⟨h.1, h.2.1⟩

/-- Claim C4 counterexample: the entry `msgNegTs` with timestamp string
`"-5"` is persisted with the non-positive stored timestamp `-5000`,
while the claim says entries failing to produce a positive integer
timestamp are rejected before persistence. -/
theorem claim_C4_counterexample :
    (processWebhookDocument [] docNegTs none).length = 1 ∧
    ((processWebhookDocument [] docNegTs none).getD 0 default).timestamp = -5000 ∧
    ¬ (0 < ((processWebhookDocument [] docNegTs none).getD 0 default).timestamp) := by
  decide

/-- Claim C4 (amended): an entry whose timestamp string does not parse
to a number (`parseInt` gives `NaN`) is rejected before persistence
(the store is unchanged); every persisted record's timestamp equals the
parsed entry timestamp (seconds) times 1000 — including zero or
negative values, which are not rejected. -/
theorem claim_C4 (store : List MessageRecord) (msg : WebhookMessage)
    (contacts : List WebhookContact) (bn : Option String) :
    (msg.timestamp.bind parseIntJS = none →
      saveMessage store (createMessageFromWebhook msg contacts bn) = store)
    ∧ (∀ rec, saveMessage store (createMessageFromWebhook msg contacts bn) =
        store ++ [rec] →
        some rec.timestamp = (msg.timestamp.bind parseIntJS).map (· * 1000)) := by
  constructor
  · intro h
    apply saveMessage_invalid
    apply mkRecord?_none_of_timestamp
    rw [createMessageFromWebhook_timestamp, h]
    rfl
  · intro rec hsave
    have hmk := saveMessage_append_inv hsave
    obtain ⟨-, -, -, -, hts, -⟩ := mkRecord?_fields hmk
    rw [← hts, createMessageFromWebhook_timestamp]

/-- Witness for claim C4: a non-numeric timestamp is rejected; the
negative-timestamp record is stored with the parsed value. -/
theorem claim_C4_witness :
    saveMessage []
      (createMessageFromWebhook msgBadTs contactsAlice (some "+9999")) = [] ∧
    some recNegTs.timestamp =
      (msgNegTs.timestamp.bind parseIntJS).map (· * 1000) :=
  ⟨(claim_C4 [] msgBadTs contactsAlice (some "+9999")).1 (by decide),
   (claim_C4 [] msgNegTs contactsAlice (some "+9999")).2 recNegTs (by decide)⟩

/-! ### Helper lemmas: the outgoing-sentinel invariant -/

/-- `saveMessage` preserves "outgoing records carry the sentinel
conversation id" over webhook-constructed messages. -/
theorem saveMessage_outgoing_inv {store : List MessageRecord}
    (msg : WebhookMessage) (contacts : List WebhookContact)
    (bn : Option String)
    (h : ∀ r ∈ store, r.isOutgoing = true → r.wa_id = "business") :
    ∀ r ∈ saveMessage store (createMessageFromWebhook msg contacts bn),
      r.isOutgoing = true → r.wa_id = "business" := by
  rcases saveMessage_cases store (createMessageFromWebhook msg contacts bn) with
    hs | ⟨rec, hmk, hs⟩
  · rw [hs]; exact h
  · rw [hs]
    intro r hr ho
    rcases List.mem_append.mp hr with hr' | hr'
    · exact h r hr' ho
    · have : r = rec := by simpa using hr'
      rw [this] at ho ⊢
      exact mkRecord?_create_outgoing hmk ho

theorem processMessages_outgoing_inv {store : List MessageRecord}
    (M : List WebhookMessage) (C : List WebhookContact) (B : Option String)
    (h : ∀ r ∈ store, r.isOutgoing = true → r.wa_id = "business") :
    ∀ r ∈ processMessages store M C B,
      r.isOutgoing = true → r.wa_id = "business" := by
  induction M generalizing store with
  | nil => exact h
  | cons m M ih => exact ih (saveMessage_outgoing_inv m C B h)

theorem applyStatus_preserves {P : MessageRecord → Prop}
    (hP : ∀ r st, P r → P { r with status := st })
    {s : List MessageRecord} (u : WebhookStatus) (h : ∀ r ∈ s, P r) :
    ∀ r ∈ applyStatus s u, P r := by
  unfold applyStatus
  cases resolvedStatus u with
  | none => exact h
  | some p => exact updateMessageStatus_preserves hP p.1 p.2 h

theorem processStatusUpdates_preserves {P : MessageRecord → Prop}
    (hP : ∀ r st, P r → P { r with status := st })
    {s : List MessageRecord} (S : List WebhookStatus) (h : ∀ r ∈ s, P r) :
    ∀ r ∈ processStatusUpdates s S, P r := by
  induction S generalizing s with
  | nil => exact h
  | cons u S ih =>
    rw [processStatusUpdates_cons]
    exact ih (applyStatus_preserves hP u h)

/-- `sendMessage` either leaves the store alone or appends the record
built by `createOutgoingMessage`. -/
theorem sendMessage_store_cases (store : List MessageRecord)
    (waId text cname env : Option String) (fid : String) (now : Int) :
    (sendMessage store waId text cname env fid now).store = store ∨
    ∃ w t, (sendMessage store waId text cname env fid now).store =
      store ++ [createOutgoingMessage w t (jsOrOpt env "+1234567890")
        (getContactName store w cname) fid now] := by
  unfold sendMessage
  cases validateMessageInput text waId with
  | some err => exact Or.inl rfl
  | none =>
    cases text with
    | none => exact Or.inl rfl
    | some t =>
      cases waId with
      | none => exact Or.inl rfl
      | some w =>
        by_cases h1 : validRecord (createOutgoingMessage w t
            (jsOrOpt env "+1234567890") (getContactName store w cname) fid now) = false
        · simp only [h1, if_true]
          exact Or.inl trivial
        · rw [Bool.not_eq_false] at h1
          simp only [h1, Bool.true_eq_false, if_false]
          by_cases h2 : store.any (fun r => r.messageId ==
              (createOutgoingMessage w t (jsOrOpt env "+1234567890")
                (getContactName store w cname) fid now).messageId) = true
          · simp only [h2, if_true]
            exact Or.inl trivial
          · rw [Bool.not_eq_true] at h2
            simp only [h2, Bool.false_eq_true, if_false]
            exact Or.inr ⟨w, t, rfl⟩

/-- Claim C9: every record written with `isOutgoing = true` — whether by
webhook ingestion or by the outgoing-message composer — stores the
sentinel `"business"` in its `wa_id` (conversation id) field, never the
contact's address; the property is an invariant of both write paths. -/
theorem claim_C9 (store : List MessageRecord)
    (hInv : ∀ r ∈ store, r.isOutgoing = true → r.wa_id = "business") :
    (∀ v env, ∀ r ∈ processWebhookDocument store v env,
      r.isOutgoing = true → r.wa_id = "business")
    ∧ (∀ waId text cname env fid now,
      ∀ r ∈ (sendMessage store waId text cname env fid now).store,
        r.isOutgoing = true → r.wa_id = "business") := by
  constructor
  · intro v env
    rw [processWebhookDocument_eq]
    exact processStatusUpdates_preserves (fun r st hr => hr) v.statuses
      (processMessages_outgoing_inv v.messages v.contacts
        (resolveBusinessNumber v env) hInv)
  · intro waId text cname env fid now
    rcases sendMessage_store_cases store waId text cname env fid now with
      hs | ⟨w, t, hs⟩
    · rw [hs]; exact hInv
    · rw [hs]
      intro r hr ho
      rcases List.mem_append.mp hr with hr' | hr'
      · exact hInv r hr' ho
      · have : r = createOutgoingMessage w t (jsOrOpt env "+1234567890")
            (getContactName store w cname) fid now := by simpa using hr'
        rw [this]
        rfl

/-- Witness for claim C9 at the concrete business-sent document. -/
theorem claim_C9_witness : recOutbound.wa_id = "business" :=
  (claim_C9 [] (by simp)).1 docOutbound none recOutbound (by decide) (by decide)

/-! ### Helper lemmas: sending -/

theorem jsOrOpt_ne_of_default {o : Option String} {d : String} (hd : d ≠ "") :
    jsOrOpt o d ≠ "" := by
  cases o with
  | none => exact hd
  | some s =>
    unfold jsOrOpt jsOr
    by_cases hs : s = "" <;> simp [hs, hd]

theorem validateMessageInput_some (text waId : Option String)
    (h : text = none ∨ text = some "" ∨ (∃ t, text = some t ∧ jsTrim t = "") ∨
      waId = none ∨ waId = some "") :
    ∃ e, validateMessageInput text waId = some e := by
  unfold validateMessageInput
  rcases h with h | h | ⟨t, ht, htr⟩ | h | h
  · rw [h]; exact ⟨_, rfl⟩
  · rw [h]; simp
  · rw [ht]; simp [htr]
  · cases text with
    | none => exact ⟨_, rfl⟩
    | some t =>
      by_cases hc : (t = "" || jsTrim t = "") = true
      · simp [hc]
      · simp only [Bool.not_eq_true] at hc
        simp [hc, h, truthy]
  · cases text with
    | none => exact ⟨_, rfl⟩
    | some t =>
      by_cases hc : (t = "" || jsTrim t = "") = true
      · simp [hc]
      · simp only [Bool.not_eq_true] at hc
        simp [hc, h, truthy]

theorem sendMessage_error {store : List MessageRecord}
    {text waId : Option String} {e : String} (cname env : Option String)
    (fid : String) (now : Int)
    (hval : validateMessageInput text waId = some e) :
    sendMessage store waId text cname env fid now =
      { store := store, error := some e } := by
  unfold sendMessage
  rw [hval]

theorem sendMessage_success {store : List MessageRecord} {t w : String}
    (cname env : Option String) (fid : String) (now : Int)
    (hval : validateMessageInput (some t) (some w) = none)
    (hvr : validRecord (createOutgoingMessage w t (jsOrOpt env "+1234567890")
      (getContactName store w cname) fid now) = true)
    (hany : store.any (fun r => r.messageId == fid) = false) :
    sendMessage store (some w) (some t) cname env fid now =
      { store := store ++ [createOutgoingMessage w t (jsOrOpt env "+1234567890")
          (getContactName store w cname) fid now],
        error := none } := by
  unfold sendMessage
  rw [hval]
  simp only [hvr, Bool.true_eq_false, if_false]
  have : (createOutgoingMessage w t (jsOrOpt env "+1234567890")
      (getContactName store w cname) fid now).messageId = fid := rfl
  rw [this, hany]
  simp

/-- Claim C8: `sendMessage` answers `{success:false, error}` and stores
nothing when the text is absent, empty or whitespace-only, or the
conversation id is absent (or empty, which JavaScript treats as
absent); with a non-empty trimmed text, a present conversation id and a
fresh non-empty generated id, validation passes and the outgoing record
— `isOutgoing=true`, `status="sent"`, `contactName="You"` — is
appended. -/
theorem claim_C8 (store : List MessageRecord) (waId text cname env : Option String)
    (fid : String) (now : Int) :
    ((text = none ∨ text = some "" ∨ (∃ t, text = some t ∧ jsTrim t = "") ∨
        waId = none ∨ waId = some "") →
      (sendMessage store waId text cname env fid now).store = store ∧
      (sendMessage store waId text cname env fid now).error ≠ none)
    ∧ (∀ t w, text = some t → jsTrim t ≠ "" → waId = some w → w ≠ "" →
        fid ≠ "" → (∀ r ∈ store, r.messageId ≠ fid) →
        (sendMessage store waId text cname env fid now).error = none ∧
        (sendMessage store waId text cname env fid now).store =
          store ++ [createOutgoingMessage w t (jsOrOpt env "+1234567890")
            (getContactName store w cname) fid now] ∧
        (createOutgoingMessage w t (jsOrOpt env "+1234567890")
          (getContactName store w cname) fid now).isOutgoing = true ∧
        (createOutgoingMessage w t (jsOrOpt env "+1234567890")
          (getContactName store w cname) fid now).status = "sent" ∧
        (createOutgoingMessage w t (jsOrOpt env "+1234567890")
          (getContactName store w cname) fid now).contactName = "You") := by
  constructor
  · intro h
    rcases validateMessageInput_some text waId h with ⟨e, he⟩
    rw [sendMessage_error cname env fid now he]
    exact ⟨rfl, by simp⟩
  · intro t w ht htr hw hw0 hf0 hfresh
    subst ht hw
    have ht0 : t ≠ "" := fun hc => htr (by rw [hc]; rfl)
    have hval : validateMessageInput (some t) (some w) = none := by
      unfold validateMessageInput
      simp [ht0, htr, truthy, hw0]
    have hbp : jsOrOpt env "+1234567890" ≠ "" := jsOrOpt_ne_of_default (by simp)
    have hvr : validRecord (createOutgoingMessage w t (jsOrOpt env "+1234567890")
        (getContactName store w cname) fid now) = true := by
      simp [validRecord, createOutgoingMessage, messageTypeEnum, statusEnum,
        hw0, hf0, hbp]
    have hany : store.any (fun r => r.messageId == fid) = false := by
      rw [List.any_eq_false]
      intro r hr
      simpa using hfresh r hr
    rw [sendMessage_success cname env fid now hval hvr hany]
    exact ⟨rfl, rfl, rfl, rfl, rfl⟩

/-- Witness for claim C8: whitespace-only text is rejected with the
store untouched; a real text is appended as an outgoing record. -/
theorem claim_C8_witness :
    ((sendMessage [] (some "+1111") (some "   ") none none "msg_1" 99).store = [] ∧
      (sendMessage [] (some "+1111") (some "   ") none none "msg_1" 99).error ≠ none) ∧
    ((sendMessage [] (some "+1111") (some "hello") none none "msg_1" 99).error = none ∧
      (sendMessage [] (some "+1111") (some "hello") none none "msg_1" 99).store =
        [] ++ [createOutgoingMessage "+1111" "hello" (jsOrOpt none "+1234567890")
          (getContactName [] "+1111" none) "msg_1" 99] ∧
      (createOutgoingMessage "+1111" "hello" (jsOrOpt none "+1234567890")
        (getContactName [] "+1111" none) "msg_1" 99).isOutgoing = true ∧
      (createOutgoingMessage "+1111" "hello" (jsOrOpt none "+1234567890")
        (getContactName [] "+1111" none) "msg_1" 99).status = "sent" ∧
      (createOutgoingMessage "+1111" "hello" (jsOrOpt none "+1234567890")
        (getContactName [] "+1111" none) "msg_1" 99).contactName = "You") :=
  ⟨(claim_C8 [] (some "+1111") (some "   ") none none "msg_1" 99).1
      (Or.inr (Or.inr (Or.inl ⟨"   ", rfl, by decide⟩))),
   (claim_C8 [] (some "+1111") (some "hello") none none "msg_1" 99).2
      "hello" "+1111" rfl (by decide) rfl (by decide) (by decide) (by simp)⟩

/-! ### Helper lemmas: conversation aggregation -/

theorem mem_distinctInboundWaIds {store : List MessageRecord} {i : String} :
    i ∈ distinctInboundWaIds store ↔
      ∃ r ∈ store, r.isOutgoing = false ∧ r.wa_id = i := by
  unfold distinctInboundWaIds
  rw [List.mem_dedup, List.mem_map]
  constructor
  · rintro ⟨r, hr, he⟩
    rw [List.mem_filter] at hr
    exact ⟨r, hr.1, by simpa using hr.2, he⟩
  · rintro ⟨r, hr, ho, he⟩
    exact ⟨r, List.mem_filter.mpr ⟨hr, by simp [ho]⟩, he⟩

/-- An id with an inbound record always gets a (non-`null`) summary,
and the summary carries that id. -/
theorem buildConversationSummary_inbound {store : List MessageRecord}
    {i : String} (h : ∃ r ∈ store, r.isOutgoing = false ∧ r.wa_id = i) :
    ∃ s, buildConversationSummary store i = some s ∧ s.wa_id = i := by
  rcases h with ⟨r, hr, ho, hw⟩
  have hmem : r ∈ store.filter (fun x => x.wa_id == i || x.toNumber == i) :=
    List.mem_filter.mpr ⟨hr, by simp [hw]⟩
  cases hsort : (store.filter (fun x => x.wa_id == i || x.toNumber == i)).insertionSort
      (fun a b => b.timestamp ≤ a.timestamp) with
  | nil =>
    exfalso
    have hlen := List.length_insertionSort
      (fun (a b : MessageRecord) => b.timestamp ≤ a.timestamp)
      (store.filter (fun x => x.wa_id == i || x.toNumber == i))
    rw [hsort] at hlen
    have hnil : store.filter (fun x => x.wa_id == i || x.toNumber == i) = [] :=
      List.length_eq_zero.mp hlen.symm
    rw [hnil] at hmem
    simp at hmem
  | cons lm tl =>
    have heq : buildConversationSummary store i = some
        { wa_id := i
          phoneNumber :=
            match (store.filter
                (fun x => x.wa_id == i && x.isOutgoing == false)).head? with
            | some ci => jsOr ci.fromNumber i
            | none => i
          contactName :=
            match (store.filter
                (fun x => x.wa_id == i && x.isOutgoing == false)).head? with
            | some ci => jsOr ci.contactName "Unknown"
            | none => "Unknown"
          lastMessage := jsOr lm.text "No message"
          lastMessageTime := lm.timestamp
          isLastOutgoing := lm.isOutgoing } := by
      simp only [buildConversationSummary]
      rw [hsort]
      rfl
    exact ⟨_, heq, rfl⟩

theorem filterMap_summaries (store : List MessageRecord) :
    ∀ ids : List String,
      (∀ i ∈ ids, ∃ r ∈ store, r.isOutgoing = false ∧ r.wa_id = i) →
      (ids.filterMap (buildConversationSummary store)).map (·.wa_id) = ids := by
  intro ids
  induction ids with
  | nil => intro _; rfl
  | cons i ids ih =>
    intro h
    rcases buildConversationSummary_inbound (h i (by simp)) with ⟨s, hs, hw⟩
    rw [List.filterMap_cons_some hs, List.map_cons, hw,
      ih (fun j hj => h j (by simp [hj]))]

theorem getConversations_map_perm (store : List MessageRecord) :
    ((getConversations store).map (·.wa_id)).Perm (distinctInboundWaIds store) := by
  have hmap := filterMap_summaries store (distinctInboundWaIds store)
    (fun i hi => mem_distinctInboundWaIds.mp hi)
  have hperm := (List.perm_insertionSort
    (fun (a b : ConversationSummary) => b.lastMessageTime ≤ a.lastMessageTime)
    ((distinctInboundWaIds store).filterMap (buildConversationSummary store))).map
    (·.wa_id)
  rw [hmap] at hperm
  exact hperm

/-- Claim C5: the conversation list carries exactly one summary per
distinct `wa_id` occurring on an inbound record (as a duplicate-free
permutation of those ids); a contact with no inbound record — in
particular an outbound-only contact — never appears. -/
theorem claim_C5 (store : List MessageRecord) :
    ((getConversations store).map (·.wa_id)).Perm (distinctInboundWaIds store)
    ∧ ((getConversations store).map (·.wa_id)).Nodup
    ∧ (∀ c, (∀ r ∈ store, r.isOutgoing = false → r.wa_id ≠ c) →
        ∀ s ∈ getConversations store, s.wa_id ≠ c) := by
  refine ⟨getConversations_map_perm store, ?_, ?_⟩
  · exact ((getConversations_map_perm store).nodup_iff).mpr (List.nodup_dedup _)
  · intro c hc s hs hxc
    have h1 : s.wa_id ∈ (getConversations store).map (·.wa_id) :=
      List.mem_map.mpr ⟨s, hs, rfl⟩
    have h2 : s.wa_id ∈ distinctInboundWaIds store :=
      ((getConversations_map_perm store).mem_iff).mp h1
    rcases mem_distinctInboundWaIds.mp h2 with ⟨r, hr, ho, hw⟩
    exact hc r hr ho (hw.trans hxc)

/-- Witness for claim C5: in the two-record store only Alice's thread is
listed, and the outbound-only contact `+2222` is absent. -/
theorem claim_C5_witness : summaryAlice.wa_id ≠ "+2222" :=
  (claim_C5 [recInbound, recOutbound]).2.2 "+2222" (by decide) summaryAlice
    (by decide)

/-- Claim C10: the `totalConversations` statistic of the health endpoint
equals the length of the conversation list, both being the number of
distinct `wa_id` values among inbound records. -/
theorem claim_C10 (store : List MessageRecord) :
    (getHealth store).totalConversations = (getConversations store).length ∧
    (getHealth store).totalConversations = (distinctInboundWaIds store).length := by
  refine ⟨?_, rfl⟩
  have h2 : (getConversations store).length =
      ((getConversations store).map (·.wa_id)).length :=
    (List.length_map _ _).symm
  have h3 := (getConversations_map_perm store).length_eq
  show (distinctInboundWaIds store).length = (getConversations store).length
  rw [h2, h3]

/-- Claim C6 counterexample: in a store holding two distinct records of
the same conversation with equal timestamps, the listed messages are
not related by "A precedes B iff A.timestamp ≤ B.timestamp": the tied
timestamps satisfy ≤ in both directions while only one order of
positions holds. -/
theorem claim_C6_counterexample :
    ¬ (∀ i, i < (getMessages [recTieA, recTieB] "+1111").length →
        ∀ j, j < (getMessages [recTieA, recTieB] "+1111").length →
          (i < j ↔
            ((getMessages [recTieA, recTieB] "+1111").getD i default).timestamp ≤
              ((getMessages [recTieA, recTieB] "+1111").getD j default).timestamp)) := by
  intro h
  have h2 := (h 1 (by decide) 0 (by decide)).mpr (by decide)
  exact absurd h2 (by decide)

/-- Claim C6 (amended): `getMessages` returns exactly the stored records
whose `wa_id` or `toNumber` equals the requested id (a permutation of
that filter), sorted by ascending timestamp — any earlier message's
timestamp is at most any later one's (the strict iff holds only when
timestamps are distinct); an id with no matching records yields the
empty list, not an error. -/
theorem claim_C6 (store : List MessageRecord) (waId : String) :
    (getMessages store waId).Perm
      (store.filter (fun r => r.wa_id == waId || r.toNumber == waId))
    ∧ List.Pairwise (fun a b => a.timestamp ≤ b.timestamp)
        (getMessages store waId)
    ∧ ((∀ r ∈ store, r.wa_id ≠ waId ∧ r.toNumber ≠ waId) →
        getMessages store waId = []) := by
  refine ⟨List.perm_insertionSort _ _, ?_, ?_⟩
  · exact List.sorted_insertionSort
      (fun (a b : MessageRecord) => a.timestamp ≤ b.timestamp)
      (store.filter (fun r => r.wa_id == waId || r.toNumber == waId))
  · intro h
    have hfil : store.filter (fun r => r.wa_id == waId || r.toNumber == waId) = [] := by
      rw [List.filter_eq_nil_iff]
      intro r hr
      simp [(h r hr).1, (h r hr).2]
    unfold getMessages
    rw [hfil]
    rfl

/-- Witness for claim C6: an id with no stored history yields `[]`. -/
theorem claim_C6_witness : getMessages [recTieA] "+7777" = [] :=
  (claim_C6 [recTieA] "+7777").2.2 (by decide)
